import Mathlib

/-!
Verification of the ESG dashboard (src/app.py) against its design document.

The dashboard loads a CSV of company ESG scores and financial ratios into a
pandas dataframe and computes, per render pass:
  * per-metric mean / median / top-3 company names (`calculate_statistics`,
    app.py lines 105-115);
  * a ranking (`df.sort_values(by=metric, ascending=True).tail(15)`, line 196);
  * a Pearson correlation between a score column and a financial column
    (`df[a].corr(df[b])`, line 245) and a degree-1 least-squares trend line
    (`np.polyfit(df[a], df[b], 1)`, line 260);
  * a search filter over company names
    (`df[df['会社名'].str.contains(search, case=False)] if search else df`,
    line 299).

A dataframe row is embedded as a `Record` whose numeric cells are `Option ℚ`
(`none` models a NaN / missing cell of the float64 column).  All numeric code
is embedded over `ℚ`; the Pearson coefficient, whose value needs a square
root, lands in `Option ℝ`, with `none` modelling a NaN result.
-/

/-- The seven numeric columns of the dataframe: the four ESG score columns
(総合スコア, 環境スコア, 社会スコア, ガバナンススコア) and the three financial
columns (PE Ratio (TTM), Price/Book, Enterprise Value/EBITDA). -/
inductive Metric
  | overall
  | environmental
  | social
  | governance
  | peRatioTtm
  | priceToBook
  | evToEbitda
deriving DecidableEq, Repr

/-- One dataframe row: the company name (会社名) and the seven numeric cells.
A cell is `none` when the CSV value is missing (NaN in the float64 column);
the design document only allows this for the three financial ratios, but the
embedding does not build that assumption in. -/
structure Record where
  name : String
  overall : Option ℚ
  environmental : Option ℚ
  social : Option ℚ
  governance : Option ℚ
  peRatioTtm : Option ℚ
  priceToBook : Option ℚ
  evToEbitda : Option ℚ
deriving DecidableEq, Repr

/-- Column access `df[col]` for a single row. -/
def Record.get (r : Record) : Metric → Option ℚ
  | .overall => r.overall
  | .environmental => r.environmental
  | .social => r.social
  | .governance => r.governance
  | .peRatioTtm => r.peRatioTtm
  | .priceToBook => r.priceToBook
  | .evToEbitda => r.evToEbitda

/-- The sort key pandas uses for a numeric column: missing values (NaN)
compare last (`na_position='last'` default of `sort_values`), which is the
top element of `WithTop ℚ`. -/
def keyW (m : Metric) (r : Record) : WithTop ℚ :=
  match r.get m with
  | some q => (q : WithTop ℚ)
  | none => ⊤

/-- Ascending comparison of two rows on column `m`, missing values last. -/
def rleAsc (m : Metric) (a b : Record) : Prop := keyW m a ≤ keyW m b

/-- Descending comparison of two rows on column `m`. -/
def rleDesc (m : Metric) (a b : Record) : Prop := keyW m b ≤ keyW m a

instance (m : Metric) : DecidableRel (rleAsc m) := fun a b =>
  inferInstanceAs (Decidable (keyW m a ≤ keyW m b))

instance (m : Metric) : DecidableRel (rleDesc m) := fun a b =>
  inferInstanceAs (Decidable (keyW m b ≤ keyW m a))

/-- Embeds `df.sort_values(by=m, ascending=True)` (app.py line 196) by what
the call guarantees of its output.  `sort_values` without a `kind` argument
uses numpy's default sort (`kind='quicksort'`, an introsort), which the
pandas documentation states is NOT stable, so the relative order of rows
whose keys tie is an implementation detail the API leaves unspecified; only
the handling of missing keys is pinned down (`nargsort` sorts the non-NaN
rows and appends the NaN positions in their original order,
`na_position='last'`).  The embedding is therefore a predicate over the
admissible outputs: some ascending permutation of the rows with a present
key, followed by the rows with a missing key in original order. -/
def IsSortValuesResult (df : List Record) (m : Metric)
    (out : List Record) : Prop :=
  ∃ srt : List Record,
    srt.Perm (df.filter (fun r => (r.get m).isSome)) ∧
    List.Pairwise (rleAsc m) srt ∧
    out = srt ++ df.filter (fun r => (r.get m).isNone)

/-- `tail(n)` of pandas: the last `n` rows (all rows when `n` exceeds the
length). -/
def takeLast (n : Nat) (l : List Record) : List Record :=
  l.drop (l.length - n)

/-- Admissible outputs of the ranking pipeline of app.py line 196,
`df.sort_values(by=metric, ascending=True).tail(limit)`; the dashboard
instantiates `limit := 15`. -/
def IsRankResult (df : List Record) (m : Metric) (limit : Nat)
    (out : List Record) : Prop :=
  ∃ s, IsSortValuesResult df m s ∧ out = takeLast limit s

/-- Embeds `df.nlargest(n, col)` (app.py line 113): rows whose cell is
missing are dropped, the rest are ordered descending by the column with ties
kept in first-seen order (`keep='first'`), and the first `n` are returned. -/
def nlargest (n : Nat) (m : Metric) (df : List Record) : List Record :=
  List.take n
    (List.insertionSort (rleDesc m) (df.filter (fun r => (r.get m).isSome)))

section StableSortLemmas

variable {α : Type} {β : Type} (r : α → α → Prop) [DecidableRel r]
variable (k : α → β) [DecidableEq β]

/-- Inserting an element whose key equals `v` with `orderedInsert` puts it in
front of every other element with key `v`: the elements it skips are exactly
those it is not `r`-below, and such elements have a different key. -/
theorem filter_orderedInsert_of_eq
    (h1 : ∀ a b, k a = k b → r a b) (h2 : ∀ a b, ¬ r a b → k a ≠ k b)
    (x : α) (v : β) (hx : k x = v) :
    ∀ l : List α,
      (List.orderedInsert r x l).filter (fun y => k y = v) =
        x :: l.filter (fun y => k y = v)
  | [] => by simp [List.orderedInsert, hx]
  | y :: l => by
    by_cases hr : r x y
    · simp [List.orderedInsert, hr, hx]
    · have hky : k y ≠ v := by
        intro hv
        exact h2 x y hr (by rw [hx, hv])
      simp [List.orderedInsert, if_neg hr, hky,
        filter_orderedInsert_of_eq h1 h2 x v hx l]

/-- Inserting an element whose key differs from `v` leaves the key-`v`
subsequence unchanged. -/
theorem filter_orderedInsert_of_ne (x : α) (v : β) (hx : k x ≠ v) :
    ∀ l : List α,
      (List.orderedInsert r x l).filter (fun y => k y = v) =
        l.filter (fun y => k y = v)
  | [] => by simp [List.orderedInsert, hx]
  | y :: l => by
    by_cases hr : r x y
    · simp [List.orderedInsert, hr, hx]
    · by_cases hky : k y = v
      · simp [List.orderedInsert, if_neg hr, hky,
          filter_orderedInsert_of_ne x v hx l]
      · simp [List.orderedInsert, if_neg hr, hky,
          filter_orderedInsert_of_ne x v hx l]

/-- Stability of `insertionSort` for a key-based relation: the subsequence of
elements with any fixed key is untouched by the sort. -/
theorem filter_insertionSort (h1 : ∀ a b, k a = k b → r a b)
    (h2 : ∀ a b, ¬ r a b → k a ≠ k b) (v : β) :
    ∀ l : List α,
      (List.insertionSort r l).filter (fun y => k y = v) =
        l.filter (fun y => k y = v)
  | [] => rfl
  | x :: l => by
    by_cases hx : k x = v
    · rw [List.insertionSort,
        filter_orderedInsert_of_eq r k h1 h2 x v hx,
        filter_insertionSort h1 h2 v l]
      simp [hx]
    · rw [List.insertionSort,
        filter_orderedInsert_of_ne r k x v hx,
        filter_insertionSort h1 h2 v l]
      simp [hx]

end StableSortLemmas

theorem rleDesc_key_eq {m : Metric} {a b : Record} (h : keyW m a = keyW m b) :
    rleDesc m a b := le_of_eq h.symm

theorem rleDesc_key_ne {m : Metric} {a b : Record} (h : ¬ rleDesc m a b) :
    keyW m a ≠ keyW m b := fun he => h (le_of_eq he.symm)

instance (m : Metric) : IsTotal Record (rleAsc m) :=
  ⟨fun a b => le_total (keyW m a) (keyW m b)⟩

instance (m : Metric) : IsTrans Record (rleAsc m) :=
  ⟨fun _ _ _ hab hbc => le_trans hab hbc⟩

instance (m : Metric) : IsTotal Record (rleDesc m) :=
  ⟨fun a b => le_total (keyW m b) (keyW m a)⟩

instance (m : Metric) : IsTrans Record (rleDesc m) :=
  ⟨fun _ _ _ hab hbc => le_trans hbc hab⟩

/-! ## Series statistics: pandas `mean` / `median` (app.py lines 110-112) -/

/-- The non-missing values of a column, in row order (pandas drops NaN before
aggregating, `skipna=True` default). -/
def presentVals (xs : List (Option ℚ)) : List ℚ := xs.reduceOption

/-- Embeds `df[col].mean()`: arithmetic mean of the non-missing values, NaN
(`none`) when every value is missing. -/
def seriesMean (xs : List (Option ℚ)) : Option ℚ :=
  let v := presentVals xs
  if v.isEmpty then none else some (v.sum / (v.length : ℚ))

/-- Embeds `df[col].median()`: the non-missing values are sorted ascending;
the middle value is returned for an odd count, the average of the two middle
values for an even count, NaN (`none`) for an empty column. -/
def seriesMedian (xs : List (Option ℚ)) : Option ℚ :=
  let v := List.insertionSort (· ≤ ·) (presentVals xs)
  if v.isEmpty then none
  else if v.length % 2 = 1 then some (v.getD (v.length / 2) 0)
  else some ((v.getD (v.length / 2 - 1) 0 + v.getD (v.length / 2) 0) / 2)

/-- The payload of `calculate_statistics` (app.py lines 105-115): per column,
the mean (`'{col}_avg'` entries), the median (`'{col}_median'` entries) and
the top-3 company names (`'{col}_top'` entries, from
`df.nlargest(3, col)['会社名'].tolist()`).  The source builds these for the
four score columns; the embedding is uniform in the column. -/
structure Stats where
  avg : Metric → Option ℚ
  med : Metric → Option ℚ
  top : Metric → List String

/-- Embeds `calculate_statistics(df)` (app.py lines 105-115). -/
def calculate_statistics (df : List Record) : Stats where
  avg := fun m => seriesMean (df.map (fun r => r.get m))
  med := fun m => seriesMedian (df.map (fun r => r.get m))
  top := fun m => (nlargest 3 m df).map Record.name

/-! ## Correlation and trend line (app.py lines 245 and 260) -/

/-- The rows where both selected columns have a value, as value pairs in row
order: the pairwise-complete set over which pandas `Series.corr` works. -/
def completePairs (df : List Record) (a b : Metric) : List (ℚ × ℚ) :=
  df.filterMap (fun r =>
    match r.get a, r.get b with
    | some x, some y => some (x, y)
    | _, _ => none)

/-- Sum of the first components of a pair list. -/
def sX (ps : List (ℚ × ℚ)) : ℚ := (ps.map Prod.fst).sum

/-- Sum of the second components. -/
def sY (ps : List (ℚ × ℚ)) : ℚ := (ps.map Prod.snd).sum

/-- Sum of the products of the components. -/
def sXY (ps : List (ℚ × ℚ)) : ℚ := (ps.map (fun p => p.1 * p.2)).sum

/-- Sum of the squares of the first components. -/
def sXX (ps : List (ℚ × ℚ)) : ℚ := (ps.map (fun p => p.1 * p.1)).sum

/-- Sum of the squares of the second components. -/
def sYY (ps : List (ℚ × ℚ)) : ℚ := (ps.map (fun p => p.2 * p.2)).sum

/-- `n · Σxy − Σx · Σy`: the Pearson numerator, cleared of denominators. -/
def corrNum (ps : List (ℚ × ℚ)) : ℚ :=
  (ps.length : ℚ) * sXY ps - sX ps * sY ps

/-- `n · Σx² − (Σx)²`: the squared scale of the first coordinate (a
nonnegative quantity that vanishes exactly when the x-values carry no
spread, i.e. when the float computation of the standard deviation is 0). -/
def corrDenX (ps : List (ℚ × ℚ)) : ℚ :=
  (ps.length : ℚ) * sXX ps - sX ps * sX ps

/-- `n · Σy² − (Σy)²`, the squared scale of the second coordinate. -/
def corrDenY (ps : List (ℚ × ℚ)) : ℚ :=
  (ps.length : ℚ) * sYY ps - sY ps * sY ps

/-- Pearson correlation of a list of pairs,
`r = (nΣxy − ΣxΣy) / (√(nΣx²−(Σx)²) · √(nΣy²−(Σy)²))`, which is the usual
`cov/(σₓσᵧ)` with numerator and denominator both scaled by `n`.  When either
scale vanishes (in particular whenever fewer than 2 pairs exist) the float
computation divides 0 by 0 or by 0 and yields NaN, embedded as `none`. -/
noncomputable def corrOfPairs (ps : List (ℚ × ℚ)) : Option ℝ :=
  if corrDenX ps = 0 ∨ corrDenY ps = 0 then none
  else some ((corrNum ps : ℝ) /
    (Real.sqrt (corrDenX ps) * Real.sqrt (corrDenY ps)))

/-- Embeds `df[a].corr(df[b])` (app.py line 245): pandas drops the rows where
either value is missing and computes Pearson `r` over the remaining pairs. -/
noncomputable def pandasCorr (df : List Record) (a b : Metric) : Option ℝ :=
  corrOfPairs (completePairs df a b)

/-- Degree-1 least-squares fit over a list of points: the unique minimiser
`(slope, intercept)` of the residual sum of squares, from the normal
equations; `none` when the system is rank-deficient
(`n·Σx² − (Σx)² = 0`, e.g. fewer than two distinct x-values). -/
def lsqFit (ps : List (ℚ × ℚ)) : Option (ℚ × ℚ) :=
  let det := corrDenX ps
  if det = 0 then none
  else
    let slope := corrNum ps / det
    some (slope, (sY ps - slope * sX ps) / (ps.length : ℚ))

/-- Embeds `np.polyfit(df[a], df[b], 1)` (app.py line 260).  The raw columns
are passed to numpy: rows with a missing value are NOT dropped, and a NaN
anywhere in the input makes the least-squares call fail (NaN coefficients /
`LinAlgError` from the underlying SVD), embedded as `none`; an empty column
likewise raises (`expected non-empty vector`).  Otherwise every row enters
the fit.  The rank-deficient branch (`none`) stands for numpy's
`RankWarning` minimum-norm answer, which the dashboard never reaches on
meaningful data. -/
def npPolyfit1 (df : List Record) (a b : Metric) : Option (ℚ × ℚ) :=
  if df.isEmpty then none
  else if df.any (fun r => (r.get a).isNone || (r.get b).isNone) then none
  else lsqFit (df.map (fun r => ((r.get a).getD 0, (r.get b).getD 0)))

/-- The error taxonomy of the design document for the correlation panel. -/
inductive CorrError
  | insufficientData
deriving DecidableEq, Repr

/-- The correlation panel computation of app.py lines 245/260: the Pearson
coefficient and the trend coefficients.  The source has no failure branch
around these calls — nothing ever raises `InsufficientData` — so the
computation always returns, which the `Except` wrapper makes visible as a
constant `Except.ok`. -/
noncomputable def correlate (df : List Record) (a b : Metric) :
    Except CorrError (Option ℝ × Option (ℚ × ℚ)) :=
  Except.ok (pandasCorr df a b, npPolyfit1 df a b)

/-! ## Search (app.py line 299)

`df[df['会社名'].str.contains(search, case=False)] if search else df`.
`Series.str.contains` defaults to `regex=True`, so a non-empty query is
compiled as a regular expression and matched with `re.search` under
`re.IGNORECASE`.  The embedding covers the fragment of Python patterns the
dashboard's claims exercise: concatenations of literal characters and the
`.` metacharacter (which matches any character except a newline).  Patterns
containing other metacharacters are outside the modelled fragment, and the
theorems below restrict to metacharacter-free queries wherever they reason
about such patterns generically. -/

/-- An atom of the modelled pattern fragment. -/
inductive RAtom
  | lit (c : Char)
  | dot
deriving DecidableEq, Repr

/-- Compilation of a query string into the modelled fragment: `.` becomes
the any-character atom, every other character a literal. -/
def parsePattern (q : String) : List RAtom :=
  q.data.map (fun c => if c = '.' then RAtom.dot else RAtom.lit c)

/-- One-character match under `re.IGNORECASE`: a literal compares
case-folded, `.` matches anything but a newline. -/
def atomMatch : RAtom → Char → Bool
  | RAtom.lit l, c => l.toLower = c.toLower
  | RAtom.dot, c => c ≠ '\n'

/-- Whether the pattern matches at the start of the character list. -/
def matchesFrom : List RAtom → List Char → Bool
  | [], _ => true
  | _ :: _, [] => false
  | a :: p, c :: cs => atomMatch a c && matchesFrom p cs

/-- `re.search`: the pattern matches at some position of the string. -/
def reSearch (p : List RAtom) : List Char → Bool
  | [] => matchesFrom p []
  | c :: cs => matchesFrom p (c :: cs) || reSearch p cs

/-- Embeds `row['会社名'].str.contains(q, case=False)` for one row. -/
def strContainsCI (s q : String) : Bool :=
  reSearch (parsePattern q) s.data

/-- Embeds the whole search line (app.py line 299): the empty query (falsy
in Python) leaves the dataframe untouched, a non-empty query keeps the rows
whose name the compiled pattern matches somewhere. -/
def search (df : List Record) (q : String) : List Record :=
  if q = "" then df else df.filter (fun r => strContainsCI r.name q)

/-- The Python regex metacharacters; a query avoiding all of them is matched
purely literally.  The braces are written by code point (123 and 125). -/
def metachars : List Char :=
  ['.', '^', '$', '*', '+', '?', '[', ']', '\\', '|', '(', ')',
    Char.ofNat 123, Char.ofNat 125]

/-- Case-folded prefix comparison of character lists. -/
def startsWithL : List Char → List Char → Bool
  | [], _ => true
  | _ :: _, [] => false
  | a :: p, c :: cs => (a = c) && startsWithL p cs

/-- Occurrence of `p` as a contiguous run inside `s`. -/
def occursIn (p : List Char) : List Char → Bool
  | [] => p.isEmpty
  | c :: cs => startsWithL p (c :: cs) || occursIn p cs

/-- The specification's search predicate, taken from its words:
"case-insensitive substring match against name". -/
def substrCI (s q : String) : Bool :=
  occursIn (q.data.map Char.toLower) (s.data.map Char.toLower)

/-- The specification's search operation, taken from its words:
"case-insensitive substring match against name; empty query returns the
full dataset unchanged". -/
def searchSpec (df : List Record) (q : String) : List Record :=
  if q = "" then df else df.filter (fun r => substrCI r.name q)

/-! ## Loading and the render pass (app.py lines 100-124) -/

/-- The error taxonomy of the loader. -/
inductive LoadError
  | fileNotFound
deriving DecidableEq, Repr

/-- Embeds `load_data` (app.py lines 100-103): `pd.read_csv('data.csv')`
raises `FileNotFoundError` when the file is absent, modelled by an
environment that either holds the parsed table or nothing. -/
def load_data (file : Option (List Record)) : Except LoadError (List Record) :=
  match file with
  | none => Except.error LoadError.fileNotFound
  | some df => Except.ok df

/-- What a render pass of `main` produces: either the single error message
of the `except FileNotFoundError` arm (app.py lines 122-124), after which
the function returns and nothing else is rendered, or the dashboard built
from the loaded table and its statistics. -/
inductive RenderResult
  | errorMessage (msg : String)
  | dashboard (df : List Record) (stats : Stats)

/-- Whether a render pass produced the dashboard. -/
def RenderResult.isDashboard : RenderResult → Bool
  | RenderResult.errorMessage _ => false
  | RenderResult.dashboard _ _ => true

namespace App

/-- Embeds the load/except prologue of `main` (app.py lines 117-124): on
`FileNotFoundError` the error text is shown (`st.error`) and `main` returns
at once, so no statistics are computed and no dashboard is rendered;
otherwise the statistics are computed and the dashboard is built. -/
def main (file : Option (List Record)) : RenderResult :=
  match load_data file with
  | Except.error LoadError.fileNotFound =>
      RenderResult.errorMessage "エラー：data.csvファイルが見つかりません。"
  | Except.ok df => RenderResult.dashboard df (calculate_statistics df)

end App

/-! ## Concrete data used by the examples, counterexamples and witnesses -/

/-- Row builder in CSV column order. -/
def mkRec (nm : String) (ov en so go pe pb ev : Option ℚ) : Record :=
  ⟨nm, ov, en, so, go, pe, pb, ev⟩

/-- Ranking example row with overall score 10. -/
def exR10 : Record := mkRec "C10" (some 10) none none none none none none

/-- Ranking example row with overall score 50. -/
def exR50 : Record := mkRec "C50" (some 50) none none none none none none

/-- Ranking example row with overall score 30. -/
def exR30 : Record := mkRec "C30" (some 30) none none none none none none

/-- The ranking example dataset: overall scores [10, 50, 30]. -/
def exRankD : List Record := [exR10, exR50, exR30]

/-- Statistics example row A: scores (80, 70, 60), a financial value. -/
def exA : Record :=
  mkRec "A" (some 80) (some 70) (some 60) (some 60) (some 1000000) none none

/-- Statistics example row B: scores (60, 50, 90), a financial value. -/
def exB : Record :=
  mkRec "B" (some 60) (some 50) (some 90) (some 90) (some 5) none none

/-- The statistics example dataset of the design document. -/
def exStatD : List Record := [exA, exB]

/-- A single fully-populated row: one complete pair for any column choice. -/
def cxOne : Record :=
  mkRec "Solo" (some 1) (some 1) (some 1) (some 1) (some 2) (some 2) (some 2)

/-- Dataset with exactly one complete (overall, PER) pair. -/
def cxOneD : List Record := [cxOne]

/-- Trend rows: two complete (overall, PER) pairs on the line y = 2x. -/
def cxT1 : Record := mkRec "T1" (some 1) none none none (some 2) none none

/-- Second complete trend row. -/
def cxT2 : Record := mkRec "T2" (some 2) none none none (some 4) none none

/-- Trend row whose PER cell is missing. -/
def cxT3 : Record := mkRec "T3" (some 3) none none none none none none

/-- Dataset on which the coefficient and the trend line see different row
sets: the correlation drops the third row, the polyfit input does not. -/
def cxTrendD : List Record := [cxT1, cxT2, cxT3]

/-- The two complete trend rows alone. -/
def cxTrendOkD : List Record := [cxT1, cxT2]

/-- A record whose name contains no literal dot. -/
def rAB : Record := mkRec "AB" (some 1) none none none none none none

/-- Single-record dataset for the regex-versus-literal counterexample. -/
def dfAB : List Record := [rAB]

/-- A record whose name is a single newline: non-empty, yet matched by no
`.` pattern position. -/
def rNl : Record := mkRec "\n" (some 1) none none none none none none

/-- Single-record dataset for the newline counterexample. -/
def dfNl : List Record := [rNl]

/-- First of two rows that tie on the overall score. -/
def tieA : Record := mkRec "TieA" (some 5) none none none none none none

/-- Second of the tied rows. -/
def tieB : Record := mkRec "TieB" (some 5) none none none none none none

/-- Two distinct rows with equal overall score, in the order A then B. -/
def dfTie : List Record := [tieA, tieB]

/-! ## Claim theorems -/

/-- C8: when the input file is absent, `load_data` fails with
`FileNotFound`, `main` surfaces the user-visible error text and returns at
once: the render result is exactly the error message, never a dashboard, so
no summary statistics are computed and nothing further is rendered. -/
theorem c8_file_not_found :
    load_data none = Except.error LoadError.fileNotFound ∧
    App.main none =
      RenderResult.errorMessage "エラー：data.csvファイルが見つかりません。" ∧
    (App.main none).isDashboard = false :=
  ⟨rfl, rfl, rfl⟩

/-- C7: the empty query is the identity of `search`, and `search` is
idempotent in the dataset argument for every query. -/
theorem c7_search_identity_idempotent (df : List Record) (q : String) :
    search df "" = df ∧ search (search df q) q = search df q := by
  refine ⟨by simp [search], ?_⟩
  by_cases hq : q = ""
  · simp [search, hq]
  · simp [search, hq, List.filter_filter]

/-- A missing cell sorts as the top key. -/
theorem keyW_eq_top {m : Metric} {r : Record} (h : (r.get m).isNone = true) :
    keyW m r = ⊤ := by
  cases hg : r.get m with
  | none => simp [keyW, hg]
  | some q => rw [hg] at h; simp at h

/-- Every admissible `sort_values` output is a permutation of the rows. -/
theorem isSortValues_perm {df : List Record} {m : Metric} {s : List Record}
    (hs : IsSortValuesResult df m s) : s.Perm df := by
  obtain ⟨srt, hperm, _, rfl⟩ := hs
  have hnn : (df.filter (fun r => (r.get m).isNone)) =
      (df.filter (fun r => !(r.get m).isSome)) := by
    refine List.filter_congr (fun r _ => ?_)
    cases r.get m <;> rfl
  have h1 : (srt ++ df.filter (fun r => (r.get m).isNone)).Perm
      (df.filter (fun r => (r.get m).isSome) ++
        df.filter (fun r => (r.get m).isNone)) := hperm.append_right _
  have h2 : (df.filter (fun r => (r.get m).isSome) ++
      df.filter (fun r => (r.get m).isNone)).Perm df := by
    rw [hnn]
    exact List.filter_append_perm _ df
  exact h1.trans h2

/-- Every admissible `sort_values` output is ascending on the key
throughout: the sorted present-key block, then the top-key block. -/
theorem isSortValues_pairwise {df : List Record} {m : Metric}
    {s : List Record} (hs : IsSortValuesResult df m s) :
    List.Pairwise (rleAsc m) s := by
  obtain ⟨srt, _, hpw, rfl⟩ := hs
  rw [List.pairwise_append]
  have htop : ∀ b ∈ df.filter (fun r => (r.get m).isNone), keyW m b = ⊤ :=
    fun b hb => keyW_eq_top (List.mem_filter.mp hb).2
  refine ⟨hpw, ?_, ?_⟩
  · refine List.pairwise_of_forall_mem_list (fun a _ b hb => ?_)
    rw [rleAsc, htop b hb]
    exact le_top
  · intro a _ b hb
    rw [rleAsc, htop b hb]
    exact le_top

/-- The three example rows have pairwise distinct keys, so they admit
exactly one ascending arrangement. -/
theorem sorted_perm_exRankD (out : List Record)
    (hp : out.Perm exRankD) (hs : List.Pairwise (rleAsc Metric.overall) out) :
    out = [exR10, exR30, exR50] := by
  have hlen : out.length = 3 := by rw [hp.length_eq]; rfl
  obtain ⟨x, y, z, rfl⟩ := List.length_eq_three.mp hlen
  have hx : x ∈ exRankD := hp.subset (by simp)
  have hy : y ∈ exRankD := hp.subset (by simp)
  have hz : z ∈ exRankD := hp.subset (by simp)
  simp only [exRankD, List.mem_cons, List.not_mem_nil, or_false] at hx hy hz
  rcases hx with rfl | rfl | rfl <;> rcases hy with rfl | rfl | rfl <;>
    rcases hz with rfl | rfl | rfl <;>
      first
      | rfl
      | exact absurd hp (by decide)
      | exact absurd hs (by decide)

/-- Counterexample to C3's stability conjunct: `dfTie` is already ascending
on the overall score, so the stable result ("ties keep original row order")
is `dfTie` itself — yet the inverted tie order is an admissible output of
line 196's default sort (pandas documents `kind='quicksort'` as not
stable), hence of the ranking: the code does not guarantee the claimed tie
order. -/
theorem c3_counterexample :
    List.Pairwise (rleAsc Metric.overall) dfTie ∧
    IsSortValuesResult dfTie Metric.overall [tieB, tieA] ∧
    IsRankResult dfTie Metric.overall 2 [tieB, tieA] ∧
    [tieB, tieA] ≠ dfTie := by
  refine ⟨by decide, ?_, ?_, by decide⟩
  · exact ⟨[tieB, tieA], by decide, by decide, by decide⟩
  · exact ⟨[tieB, tieA], ⟨[tieB, tieA], by decide, by decide, by decide⟩,
      by decide⟩

/-- C3 (amended): every admissible output of the sort underlying the
ranking is an ascending permutation of the dataset (tie order unspecified),
the ranking keeps the last `limit` entries of such an output, and on the
distinct overall scores [10, 50, 30] the top-1 ranking is uniquely the row
with score 50. -/
theorem c3_rank_ascending_last (df : List Record) (m : Metric) (limit : Nat)
    (s : List Record) (hs : IsSortValuesResult df m s) :
    s.Perm df ∧ List.Pairwise (rleAsc m) s ∧
    IsRankResult df m limit (takeLast limit s) ∧
    IsRankResult exRankD Metric.overall 1 [exR50] ∧
    (∀ res, IsRankResult exRankD Metric.overall 1 res → res = [exR50]) := by
  refine ⟨isSortValues_perm hs, isSortValues_pairwise hs, ⟨s, hs, rfl⟩,
    ⟨[exR10, exR30, exR50],
      ⟨[exR10, exR30, exR50], by decide, by decide, by decide⟩, by decide⟩,
    ?_⟩
  intro res hres
  obtain ⟨s', hs', rfl⟩ := hres
  rw [sorted_perm_exRankD s' (isSortValues_perm hs')
    (isSortValues_pairwise hs')]
  rfl

/-- Witness for the amended C3 at the example dataset and its unique
ascending arrangement. -/
theorem c3_witness :
    IsSortValuesResult exRankD Metric.overall [exR10, exR30, exR50] ∧
    ([exR10, exR30, exR50].Perm exRankD ∧
      List.Pairwise (rleAsc Metric.overall) [exR10, exR30, exR50] ∧
      IsRankResult exRankD Metric.overall 1
        (takeLast 1 [exR10, exR30, exR50])) :=
  ⟨⟨[exR10, exR30, exR50], by decide, by decide, by decide⟩,
    have hs : IsSortValuesResult exRankD Metric.overall
        [exR10, exR30, exR50] :=
      ⟨[exR10, exR30, exR50], by decide, by decide, by decide⟩
    have hc := c3_rank_ascending_last exRankD Metric.overall 1
      [exR10, exR30, exR50] hs
    ⟨hc.1, hc.2.1, hc.2.2.1⟩⟩

/-- A filtered chunk of a truncation is a truncation of the filtration: used
to express that `nlargest`'s tie handling is inherited from the stable
sort. -/
theorem filter_take (p : Record → Bool) (n : Nat) (l : List Record) :
    ∃ j, (l.take n).filter p = (l.filter p).take j := by
  refine ⟨((l.take n).filter p).length, ?_⟩
  have hsplit : l.filter p = (l.take n).filter p ++ (l.drop n).filter p := by
    rw [← List.filter_append, List.take_append_drop]
  rw [hsplit, List.take_left]

/-- C4: on a dataset whose metric column has no missing value (the data
model guarantees this for the four ESG score columns), the top-3 list of
`calculate_statistics` names the rows of `nlargest 3`, which has length
`min 3 |D|`, is sorted descending on the metric, keeps every tie group as an
initial run of its first-seen order, and every row left out has a metric
value at most that of each returned row. -/
theorem c4_top3_spec (df : List Record) (m : Metric)
    (h : df.all (fun r => (r.get m).isSome) = true) :
    (calculate_statistics df).top m = (nlargest 3 m df).map Record.name ∧
    (nlargest 3 m df).length = min 3 df.length ∧
    List.Pairwise (fun a b => keyW m b ≤ keyW m a) (nlargest 3 m df) ∧
    (∀ v : WithTop ℚ, ∃ j,
      (nlargest 3 m df).filter (fun r => keyW m r = v) =
        (df.filter (fun r => keyW m r = v)).take j) ∧
    (∀ r ∈ df, r ∉ nlargest 3 m df → ∀ y ∈ nlargest 3 m df,
      keyW m r ≤ keyW m y) := by
  have hfil : df.filter (fun r => (r.get m).isSome) = df := by
    rw [List.filter_eq_self]
    intro a ha
    exact (List.all_eq_true.mp h) a ha
  have hperm : (List.insertionSort (rleDesc m) df).Perm df :=
    List.perm_insertionSort _ df
  have hsorted : List.Pairwise (rleDesc m) (List.insertionSort (rleDesc m) df) :=
    List.sorted_insertionSort (rleDesc m) df
  have hnl : nlargest 3 m df = (List.insertionSort (rleDesc m) df).take 3 := by
    rw [nlargest, hfil]
  refine ⟨rfl, ?_, ?_, ?_, ?_⟩
  · rw [hnl, List.length_take, hperm.length_eq]
  · rw [hnl]
    exact hsorted.sublist (List.take_sublist 3 _)
  · intro v
    rw [hnl]
    have hstab :
        (List.insertionSort (rleDesc m) df).filter (fun r => keyW m r = v) =
          df.filter (fun r => keyW m r = v) :=
      filter_insertionSort (rleDesc m) (keyW m)
        (fun a b hk => rleDesc_key_eq hk) (fun a b hk => rleDesc_key_ne hk) v df
    rw [← hstab]
    exact filter_take _ 3 _
  · intro r hr hnot y hy
    rw [hnl] at hnot hy
    have hrs : r ∈ List.insertionSort (rleDesc m) df := hperm.mem_iff.mpr hr
    have hdrop : r ∈ (List.insertionSort (rleDesc m) df).drop 3 := by
      rcases List.mem_append.mp
          (by rw [List.take_append_drop]; exact hrs :
            r ∈ (List.insertionSort (rleDesc m) df).take 3 ++
              (List.insertionSort (rleDesc m) df).drop 3) with hc | hc
      · exact absurd hc hnot
      · exact hc
    exact List.Sorted.rel_of_mem_take_of_mem_drop hsorted hy hdrop

/-- Witness for C4 at a concrete dataset of three fully-scored rows. -/
theorem c4_witness :
    exRankD.all (fun r => (r.get Metric.overall).isSome) = true ∧
    (nlargest 3 Metric.overall exRankD).length = min 3 exRankD.length :=
  ⟨by decide, (c4_top3_spec exRankD Metric.overall (by decide)).2.1⟩

/-- C5: for a column with at least one present value, the average of
`calculate_statistics` is the sum of the present values divided by their
count (missing values excluded, the standard mean identity), and on the
two-row example with environmental scores 70 and 50 both the average and
the median are 60. -/
theorem c5_mean_identity (df : List Record) (m : Metric)
    (h : (presentVals (df.map (fun r => r.get m))).isEmpty = false) :
    (calculate_statistics df).avg m =
      some ((presentVals (df.map (fun r => r.get m))).sum /
        ((presentVals (df.map (fun r => r.get m))).length : ℚ)) ∧
    (calculate_statistics exStatD).avg Metric.environmental = some 60 ∧
    (calculate_statistics exStatD).med Metric.environmental = some 60 := by
  refine ⟨?_, ?_, ?_⟩
  · simp only [calculate_statistics, seriesMean, h, Bool.false_eq_true,
      if_false]
  · norm_num [calculate_statistics, seriesMean, presentVals, exStatD, exA, exB,
      mkRec, Record.get, List.reduceOption_cons_of_some]
    intro hc
    simp at hc
  · norm_num [calculate_statistics, seriesMedian, presentVals, exStatD, exA,
      exB, mkRec, Record.get, List.reduceOption_cons_of_some,
      List.insertionSort, List.orderedInsert]
    intro hc
    simp at hc

/-- Witness for C5 at the example dataset and the environmental column. -/
theorem c5_witness :
    (presentVals (exStatD.map (fun r => r.get Metric.environmental))).isEmpty
        = false ∧
    (calculate_statistics exStatD).avg Metric.environmental =
      some ((presentVals (exStatD.map
          (fun r => r.get Metric.environmental))).sum /
        ((presentVals (exStatD.map
            (fun r => r.get Metric.environmental))).length : ℚ)) :=
  ⟨by decide, (c5_mean_identity exStatD Metric.environmental (by decide)).1⟩

/-- With fewer than two pairs the x-scale `n·Σx² − (Σx)²` vanishes. -/
theorem corrDenX_of_short (ps : List (ℚ × ℚ)) (h : ps.length < 2) :
    corrDenX ps = 0 := by
  match ps, h with
  | [], _ => simp [corrDenX, sX, sXX]
  | [p], _ => simp [corrDenX, sX, sXX]

/-- C1 (amended): with fewer than 2 complete pairs the correlation panel
does not fail — nothing raises `InsufficientData` — it returns normally
with a NaN coefficient. -/
theorem c1_insufficient_pairs_give_nan (df : List Record) (a b : Metric)
    (h : (completePairs df a b).length < 2) :
    pandasCorr df a b = none ∧
    correlate df a b = Except.ok (none, npPolyfit1 df a b) := by
  have hd : pandasCorr df a b = none := by
    rw [pandasCorr, corrOfPairs,
      if_pos (Or.inl (corrDenX_of_short (completePairs df a b) h))]
  exact ⟨hd, by rw [correlate, hd]⟩

/-- Counterexample to C1 as stated: a one-row dataset has a single complete
(overall, PER) pair, yet the correlation panel returns a value — `Except.ok`
with a NaN coefficient — instead of failing with `InsufficientData`. -/
theorem c1_counterexample :
    (completePairs cxOneD Metric.overall Metric.peRatioTtm).length < 2 ∧
    correlate cxOneD Metric.overall Metric.peRatioTtm ≠
      Except.error CorrError.insufficientData ∧
    correlate cxOneD Metric.overall Metric.peRatioTtm =
      Except.ok (none, none) := by
  have h1 : pandasCorr cxOneD Metric.overall Metric.peRatioTtm = none := by
    norm_num [pandasCorr, corrOfPairs, completePairs, cxOneD, cxOne, mkRec,
      Record.get, corrDenX, corrDenY, sX, sY, sXX, sYY, List.filterMap]
  have h2 : npPolyfit1 cxOneD Metric.overall Metric.peRatioTtm = none := by
    norm_num [npPolyfit1, lsqFit, corrDenX, sX, sXX, cxOneD, cxOne, mkRec,
      Record.get]
  refine ⟨by decide, ?_, ?_⟩
  · rw [correlate, h1, h2]
    simp
  · rw [correlate, h1, h2]

/-- Witness for the amended C1 at the one-row dataset. -/
theorem c1_witness :
    (completePairs cxOneD Metric.overall Metric.peRatioTtm).length < 2 ∧
    (pandasCorr cxOneD Metric.overall Metric.peRatioTtm = none ∧
      correlate cxOneD Metric.overall Metric.peRatioTtm =
        Except.ok (none, npPolyfit1 cxOneD Metric.overall Metric.peRatioTtm)) :=
  ⟨by decide,
    c1_insufficient_pairs_give_nan cxOneD Metric.overall Metric.peRatioTtm
      (by decide)⟩

/-- On a dataset with no missing value in either selected column, the
pairwise-complete set is the whole column content. -/
theorem completePairs_of_all_present (a b : Metric) :
    ∀ df : List Record,
      (∀ r ∈ df, (r.get a).isSome ∧ (r.get b).isSome) →
      completePairs df a b =
        df.map (fun r => ((r.get a).getD 0, (r.get b).getD 0))
  | [], _ => rfl
  | r :: t, h => by
    obtain ⟨ha, hb⟩ := h r (List.mem_cons_self r t)
    obtain ⟨x, hx⟩ := Option.isSome_iff_exists.mp ha
    obtain ⟨y, hy⟩ := Option.isSome_iff_exists.mp hb
    have ih := completePairs_of_all_present a b t
      (fun s hs => h s (List.mem_cons_of_mem r hs))
    simp [completePairs, List.filterMap_cons, hx, hy] at ih ⊢
    exact ih

/-- Counterexample to C2 as stated: on three rows whose first two lie on
the line y = 2x and whose third has a missing financial value, the
coefficient is computed over the two complete pairs, but the trend is NOT
the least-squares fit of that filtered row set — `np.polyfit` receives the
NaN row and produces no line, where the fit of the complete pairs is
slope 2, intercept 0. -/
theorem c2_counterexample :
    npPolyfit1 cxTrendD Metric.overall Metric.peRatioTtm = none ∧
    lsqFit (completePairs cxTrendD Metric.overall Metric.peRatioTtm) =
      some (2, 0) ∧
    npPolyfit1 cxTrendD Metric.overall Metric.peRatioTtm ≠
      lsqFit (completePairs cxTrendD Metric.overall Metric.peRatioTtm) := by
  have h1 : npPolyfit1 cxTrendD Metric.overall Metric.peRatioTtm = none := by
    decide
  have h2 : lsqFit (completePairs cxTrendD Metric.overall Metric.peRatioTtm) =
      some (2, 0) := by
    norm_num [lsqFit, completePairs, cxTrendD, cxT1, cxT2, cxT3, mkRec,
      Record.get, corrDenX, corrNum, sX, sY, sXY, sXX, List.filterMap]
  refine ⟨h1, h2, ?_⟩
  rw [h1, h2]
  simp

/-- C2 (amended): the Pearson coefficient is always computed over the
pairwise-complete rows, and whenever both selected columns are fully
present — the only case in which the trend line renders — the trend is the
least-squares fit of that same row set. -/
theorem c2_same_rows_when_complete (df : List Record) (a b : Metric)
    (h : df.all (fun r => (r.get a).isSome && (r.get b).isSome) = true) :
    npPolyfit1 df a b = lsqFit (completePairs df a b) ∧
    pandasCorr df a b = corrOfPairs (completePairs df a b) := by
  refine ⟨?_, rfl⟩
  have hall : ∀ r ∈ df, (r.get a).isSome ∧ (r.get b).isSome := by
    intro r hr
    have hrb := (List.all_eq_true.mp h) r hr
    exact ⟨(Bool.and_eq_true _ _ |>.mp hrb).1, (Bool.and_eq_true _ _ |>.mp hrb).2⟩
  match df, h with
  | [], _ =>
    rw [npPolyfit1]
    simp only [List.isEmpty_nil, if_true]
    rw [completePairs, List.filterMap_nil, lsqFit]
    simp [corrDenX, sX, sXX]
  | r :: t, h =>
    have hne : ((r :: t : List Record).isEmpty) = false := rfl
    have hnomiss :
        (r :: t : List Record).any
          (fun s => (s.get a).isNone || (s.get b).isNone) = false := by
      rw [List.any_eq_false]
      intro s hs
      obtain ⟨hsa, hsb⟩ := hall s hs
      obtain ⟨x, hx⟩ := Option.isSome_iff_exists.mp hsa
      obtain ⟨y, hy⟩ := Option.isSome_iff_exists.mp hsb
      simp [hx, hy]
    rw [npPolyfit1, hne, hnomiss]
    simp only [Bool.false_eq_true, if_false]
    rw [completePairs_of_all_present a b (r :: t) hall]

/-- Witness for the amended C2 at the two complete trend rows. -/
theorem c2_witness :
    cxTrendOkD.all
      (fun r => (r.get Metric.overall).isSome &&
        (r.get Metric.peRatioTtm).isSome) = true ∧
    (npPolyfit1 cxTrendOkD Metric.overall Metric.peRatioTtm =
        lsqFit (completePairs cxTrendOkD Metric.overall Metric.peRatioTtm) ∧
      pandasCorr cxTrendOkD Metric.overall Metric.peRatioTtm =
        corrOfPairs (completePairs cxTrendOkD Metric.overall Metric.peRatioTtm)) :=
  ⟨by decide,
    c2_same_rows_when_complete cxTrendOkD Metric.overall Metric.peRatioTtm
      (by decide)⟩

/-- Exchanging the two selected columns swaps each complete pair. -/
theorem completePairs_swap (a b : Metric) :
    ∀ df : List Record,
      completePairs df b a = (completePairs df a b).map Prod.swap
  | [] => rfl
  | r :: t => by
    have ih := completePairs_swap a b t
    cases hra : r.get a <;> cases hrb : r.get b <;>
      simp [completePairs, List.filterMap_cons, hra, hrb] at ih ⊢ <;>
      exact ih

/-- Pushing a coordinate swap through a summed map. -/
theorem sum_map_swap (f g : ℚ × ℚ → ℚ) (hfg : ∀ p, f (Prod.swap p) = g p)
    (ps : List (ℚ × ℚ)) :
    ((ps.map Prod.swap).map f).sum = (ps.map g).sum := by
  rw [List.map_map]
  exact congrArg List.sum (List.map_congr_left (fun p _ => hfg p))

/-- Swapping coordinates turns `Σx` into `Σy`. -/
theorem sX_swap (ps : List (ℚ × ℚ)) : sX (ps.map Prod.swap) = sY ps :=
  sum_map_swap Prod.fst Prod.snd (fun _ => rfl) ps

/-- Swapping coordinates turns `Σy` into `Σx`. -/
theorem sY_swap (ps : List (ℚ × ℚ)) : sY (ps.map Prod.swap) = sX ps :=
  sum_map_swap Prod.snd Prod.fst (fun _ => rfl) ps

/-- Swapping coordinates turns `Σx²` into `Σy²`. -/
theorem sXX_swap (ps : List (ℚ × ℚ)) : sXX (ps.map Prod.swap) = sYY ps :=
  sum_map_swap (fun p => p.1 * p.1) (fun p => p.2 * p.2) (fun _ => rfl) ps

/-- Swapping coordinates turns `Σy²` into `Σx²`. -/
theorem sYY_swap (ps : List (ℚ × ℚ)) : sYY (ps.map Prod.swap) = sXX ps :=
  sum_map_swap (fun p => p.2 * p.2) (fun p => p.1 * p.1) (fun _ => rfl) ps

/-- `Σxy` is invariant under the swap. -/
theorem sXY_swap (ps : List (ℚ × ℚ)) : sXY (ps.map Prod.swap) = sXY ps := by
  have h1 : sXY (ps.map Prod.swap) = ((ps.map (fun p => p.2 * p.1)).sum) :=
    sum_map_swap (fun p => p.1 * p.2) (fun p => p.2 * p.1) (fun _ => rfl) ps
  rw [h1, sXY]
  exact congrArg List.sum (List.map_congr_left (fun p _ => mul_comm p.2 p.1))

/-- The Pearson numerator is invariant under the swap. -/
theorem corrNum_swap (ps : List (ℚ × ℚ)) :
    corrNum (ps.map Prod.swap) = corrNum ps := by
  rw [corrNum, corrNum, List.length_map, sXY_swap, sX_swap, sY_swap,
    mul_comm (sY ps) (sX ps)]

/-- The x-scale of the swapped pairs is the y-scale of the originals. -/
theorem corrDenX_swap (ps : List (ℚ × ℚ)) :
    corrDenX (ps.map Prod.swap) = corrDenY ps := by
  rw [corrDenX, corrDenY, List.length_map, sXX_swap, sX_swap]

/-- The y-scale of the swapped pairs is the x-scale of the originals. -/
theorem corrDenY_swap (ps : List (ℚ × ℚ)) :
    corrDenY (ps.map Prod.swap) = corrDenX ps := by
  rw [corrDenY, corrDenX, List.length_map, sYY_swap, sY_swap]

/-- Pearson `r` of a pair list is invariant under the coordinate swap. -/
theorem corrOfPairs_swap (ps : List (ℚ × ℚ)) :
    corrOfPairs (ps.map Prod.swap) = corrOfPairs ps := by
  rw [corrOfPairs, corrOfPairs, corrNum_swap, corrDenX_swap, corrDenY_swap]
  by_cases h : corrDenX ps = 0 ∨ corrDenY ps = 0
  · rw [if_pos h.symm, if_pos h]
  · rw [if_neg (fun hc => h hc.symm), if_neg h, mul_comm]

/-- C9: the correlation of app.py line 245 is symmetric in the two selected
columns, pairwise missing-value exclusion included: the complete pairs of
the swapped selection are the swapped complete pairs, and Pearson `r` is
swap-invariant (NaN cases included). -/
theorem c9_corr_symm (df : List Record) (a b : Metric) :
    pandasCorr df a b = pandasCorr df b a := by
  rw [pandasCorr, pandasCorr, completePairs_swap a b df, corrOfPairs_swap]

/-- An all-literal pattern matches at a position exactly when the
case-folded pattern is a case-folded prefix there. -/
theorem matchesFrom_lits : ∀ (l cs : List Char),
    matchesFrom (l.map RAtom.lit) cs =
      startsWithL (l.map Char.toLower) (cs.map Char.toLower)
  | [], cs => by cases cs <;> rfl
  | _ :: _, [] => rfl
  | a :: l, c :: cs => by
    simp [matchesFrom, startsWithL, atomMatch, matchesFrom_lits l cs]

/-- `re.search` of an all-literal pattern is the case-folded substring
occurrence test. -/
theorem reSearch_lits : ∀ (l cs : List Char),
    reSearch (l.map RAtom.lit) cs =
      occursIn (l.map Char.toLower) (cs.map Char.toLower)
  | l, [] => by cases l <;> rfl
  | l, c :: cs => by
    simp only [reSearch, List.map_cons, occursIn, matchesFrom_lits l (c :: cs),
      reSearch_lits l cs]

/-- A dot-free query compiles to literals only. -/
theorem parsePattern_no_dot (q : String) (h : ∀ c ∈ q.data, c ≠ '.') :
    parsePattern q = q.data.map RAtom.lit := by
  rw [parsePattern]
  exact List.map_congr_left (fun c hc => if_neg (h c hc))

/-- Counterexample to C6 as stated: the query "." is interpreted as a
regular expression, so it keeps the record named "AB", whose name does not
contain a dot literally — `search` disagrees with the literal
case-insensitive substring filter. -/
theorem c6_counterexample :
    search dfAB "." = dfAB ∧ substrCI rAB.name "." = false ∧
    search dfAB "." ≠ searchSpec dfAB "." :=
  ⟨by decide, by decide, by decide⟩

/-- C6 (amended): a non-empty query is matched as a regular expression; for
queries containing no regex metacharacter the behaviour coincides with the
case-insensitive literal substring filter, and the empty query returns the
dataset unchanged. -/
theorem c6_search_literal_when_no_metachar (df : List Record) (q : String)
    (h : q.data.any (fun c => metachars.contains c) = false) :
    search df q = searchSpec df q := by
  by_cases hq : q = ""
  · rw [search, searchSpec, if_pos hq, if_pos hq]
  · rw [search, searchSpec, if_neg hq, if_neg hq]
    refine List.filter_congr (fun r _ => ?_)
    have hdot : ∀ c ∈ q.data, c ≠ '.' := by
      intro c hc he
      have hne := (List.any_eq_false.mp h) c hc
      rw [he] at hne
      exact hne (by decide)
    rw [strContainsCI, substrCI, parsePattern_no_dot q hdot,
      reSearch_lits q.data r.name.data]

/-- Witness for the amended C6 at a metacharacter-free query. -/
theorem c6_witness :
    "ab".data.any (fun c => metachars.contains c) = false ∧
    search dfAB "ab" = searchSpec dfAB "ab" :=
  ⟨by decide, c6_search_literal_when_no_metachar dfAB "ab" (by decide)⟩

/-- The pattern `.` matches somewhere in a string exactly when the string
has a character other than a newline. -/
theorem reSearch_dot : ∀ cs : List Char,
    reSearch [RAtom.dot] cs = cs.any (fun c => c ≠ '\n')
  | [] => rfl
  | c :: cs => by
    simp [reSearch, matchesFrom, atomMatch, List.any_cons, reSearch_dot cs]

/-- Counterexample to C10 as stated: a record whose name is a single
newline has a non-empty name but is not returned by `search` with the query
".", since the `.` metacharacter matches no newline. -/
theorem c10_counterexample :
    rNl.name.isEmpty = false ∧ rNl ∈ dfNl ∧ rNl ∉ search dfNl "." :=
  ⟨by decide, by decide, by decide⟩

/-- C10 (amended): the query "." is interpreted as a regular expression,
not a literal: `search` with "." keeps exactly the records whose name has
at least one non-newline character — in particular the record named "AB",
whose name contains no literal dot, is kept. -/
theorem c10_dot_matches_non_newline (df : List Record) :
    search df "." = df.filter (fun r => r.name.data.any (fun c => c ≠ '\n')) ∧
    rAB ∈ search dfAB "." ∧ substrCI rAB.name "." = false := by
  refine ⟨?_, by decide, by decide⟩
  rw [search, if_neg (by decide)]
  refine List.filter_congr (fun r _ => ?_)
  rw [strContainsCI]
  have hp : parsePattern "." = [RAtom.dot] := rfl
  rw [hp, reSearch_dot r.name.data]
